import Mathlib

/-!
Verification of the OG-Core equilibrium-solver specification against the
source of `src/ogusa/TPI.py` and `src/Python/SS_init_init.py`.

The numerical code is shallowly embedded: Python/numpy floats are modelled
as exact rationals (`ℚ`), except where IEEE special values are the point of
a claim, in which case the extended type `NpFloat` below is used.  External
collaborators that are not part of this repository's sources (scipy's
`fsolve`, the `ogusa.household` FOC routines, `ogusa.firm`, `ogusa.tax`)
appear as explicit function parameters of the embedded definitions, so the
theorems quantify over every possible behaviour of those collaborators.
-/

namespace OGCore

/-! ## PriceAggregates (src/Python/SS_init_init.py, lines 177-204)

The three price functions are pure closed forms over the module-level
parameters `A`, `alpha`, `delta`; here those parameters are explicit
arguments.  Real exponentiation (`**` on floats) is modelled by `Real.rpow`.
-/

/-- Embeds `get_Y` (SS_init_init.py line 177): `A * K ** alpha * L ** (1 - alpha)`. -/
noncomputable def get_Y (A alpha K L : ℝ) : ℝ :=
  A * (K ^ alpha) * (L ^ (1 - alpha))

/-- Embeds `get_w` (SS_init_init.py line 187): `(1 - alpha) * Y / L`. -/
noncomputable def get_w (alpha Y L : ℝ) : ℝ :=
  (1 - alpha) * Y / L

/-- Embeds `get_r` (SS_init_init.py line 197): `alpha * Y / K - delta`. -/
noncomputable def get_r (alpha delta Y K : ℝ) : ℝ :=
  (alpha * Y / K) - delta

/-! ## Numpy float semantics at a zero denominator (for claim C6)

`get_w` and `get_r` divide by numpy float64 scalars.  When the denominator
is zero, numpy float division returns an IEEE special value (with a
`RuntimeWarning`, which is not an exception) instead of raising.  `NpFloat`
models a numpy float64 whose finite values are exact rationals. -/

/-- Value of a numpy float64 scalar: a finite rational or an IEEE special value. -/
inductive NpFloat where
  | fin : ℚ → NpFloat
  | inf : NpFloat
  | neginf : NpFloat
  | nan : NpFloat
deriving DecidableEq, Repr

/-- Whether a numpy float64 value is finite (neither an infinity nor NaN). -/
def NpFloat.isFinite : NpFloat → Bool
  | .fin _ => true
  | _ => false

/-- Division of two finite numpy float64 scalars: IEEE semantics at a zero
denominator (`x/0` is `inf` for `x > 0`, `-inf` for `x < 0`, `nan` for `0/0`),
exact rational division otherwise. -/
def npdiv (x y : ℚ) : NpFloat :=
  if y = 0 then
    (if 0 < x then .inf else if x < 0 then .neginf else .nan)
  else .fin (x / y)

/-- Subtraction of a finite scalar from a numpy float64 value (IEEE: the
special values absorb the subtraction). -/
def npsub (x : NpFloat) (d : ℚ) : NpFloat :=
  match x with
  | .fin q => .fin (q - d)
  | .inf => .inf
  | .neginf => .neginf
  | .nan => .nan

/-- Embeds `get_w` with numpy float64 division semantics made explicit:
`w_now = (1 - alpha) * Y_now / L_now` where the final division may hit a
zero denominator. -/
def get_w_np (alpha Y L : ℚ) : NpFloat :=
  npdiv ((1 - alpha) * Y) L

/-- Embeds `get_r` with numpy float64 division semantics made explicit:
`r_now = (alpha * Y_now / K_now) - delta` where the division may hit a zero
denominator. -/
def get_r_np (alpha delta Y K : ℚ) : NpFloat :=
  npsub (npdiv (alpha * Y) K) delta

/-! ## Terminal checks of `run_TPI` (src/ogusa/TPI.py, lines 765-786)

After the outer loop ends, `run_TPI` runs three solution checks in order
(distance, resource constraint, Euler residuals) and raises a
`RuntimeError` carrying a fixed message if one fails; otherwise it returns
the output dictionary.  A raised error is modelled as `Except.error` with
the message string. -/

/-- Embeds the module flag `ENFORCE_SOLUTION_CHECKS = True` (TPI.py line 25). -/
def ENFORCE_SOLUTION_CHECKS : Bool := true

/-- Embeds TPI.py lines 769-786: the three post-loop solution checks of
`run_TPI` and the final return.  `output` stands for the result dictionary
assembled before the checks. -/
def run_TPI_checks {α : Type} (maxiter : ℕ) (mindist_TPI : ℚ) (TPIiter : ℕ)
    (TPIdist : ℚ) (RC_error eul_savings eul_laborleisure : List ℚ)
    (output : α) : Except String α :=
  if (TPIiter ≥ maxiter ∨ |TPIdist| > mindist_TPI) ∧
      ENFORCE_SOLUTION_CHECKS = true then
    Except.error "Transition path equlibrium not found (TPIdist)"
  else if (RC_error.any fun x => mindist_TPI * 10 ≤ |x|) ∧
      ENFORCE_SOLUTION_CHECKS = true then
    Except.error "Transition path equlibrium not found (RC_error)"
  else if ((eul_savings.any fun x => mindist_TPI ≤ |x|) ∨
      (eul_laborleisure.any fun x => mindist_TPI < |x|)) ∧
      ENFORCE_SOLUTION_CHECKS = true then
    Except.error "Transition path equlibrium not found (eulers)"
  else Except.ok output

/-! ## End-of-iteration update of `run_TPI` (src/ogusa/TPI.py, lines 625-634) -/

/-- Modelled from the spec: `utils.convex_combo` (the `ogusa.utils` module is
not among the sources) blends old and new iterate values with the damping
factor, "a convex combination of old and new values weighted by a fixed
damping factor nu". -/
def convex_combo (new old nu : ℚ) : ℚ :=
  nu * new + (1 - nu) * old

/-- Result of the end-of-iteration variable update in `run_TPI`.  Paths are
time-indexed; the savings/labor guess cubes are represented through a flat
index since the update is elementwise. -/
structure TPIUpdated where
  w : ℕ → ℚ
  r : ℕ → ℚ
  BQ : ℕ → ℚ
  D : ℕ → ℚ
  Y : ℕ → ℚ
  TR : ℕ → ℚ
  guesses_b : ℕ → ℚ
  guesses_n : ℕ → ℚ

/-- Embeds TPI.py lines 625-634, the block headed
`# update vars for next iteration`: slice assignments over `[:p.T]` for the
paths, whole-array updates for the guess cubes. -/
def tpi_update (T : ℕ) (nu : ℚ) (baseline_spending : Bool)
    (w wnew r rnew BQ BQnew D Dnew Y Ynew TR TR_new : ℕ → ℚ)
    (guesses_b b_mat guesses_n n_mat : ℕ → ℚ) : TPIUpdated where
  w := fun i => if i < T then wnew i else w i
  r := fun i => if i < T then convex_combo (rnew i) (r i) nu else r i
  BQ := fun i => if i < T then convex_combo (BQnew i) (BQ i) nu else BQ i
  D := fun i => if i < T then Dnew i else D i
  Y := fun i => if i < T then convex_combo (Ynew i) (Y i) nu else Y i
  TR := fun i =>
    if baseline_spending = false ∧ i < T then convex_combo (TR_new i) (TR i) nu
    else TR i
  guesses_b := fun i => convex_combo (b_mat i) (guesses_b i) nu
  guesses_n := fun i => convex_combo (n_mat i) (guesses_n i) nu

/-! ## Household residual functions of TPI.py

`household.FOC_savings` and `household.FOC_labor` live in the external
`ogusa.household` module (not among the sources), so they appear as
function parameters.  Every argument that TPI.py computes and passes to
them per call site (prices, budget-chain savings, labor, bequests,
transfers, tax-parameter slices, the period index) is kept explicit; the
remaining arguments (`theta`, `factor`, `e`, `rho`/`chi_n`, `j`, `p`,
method string) are constant across the calls of one solve and are treated
as already applied inside the parameter. -/

/-- Shape of the `household.FOC_savings` / `household.FOC_labor`
collaborators as called from `twist_doughnut`: arguments are
`r_s`, `w_s`, `b_s`, `b_splus1`, `n_s`, `bq`, `tr`, `tau_c`, the
tax-function parameter rows, and the model period `t`. -/
abbrev FocFn :=
  List ℚ → List ℚ → List ℚ → List ℚ → List ℚ → List ℚ → List ℚ → List ℚ →
    List (List ℚ) → List (List ℚ) → ℕ → List ℚ

/-- Shape of the FOC collaborators as called from `firstdoughnutring`
(scalar case): arguments are `r`, `w`, `bq`, `tr`, `b_s`, `b_splus1`, `n`. -/
abbrev FocScalarFn := ℚ → ℚ → ℚ → ℚ → ℚ → ℚ → ℚ → ℚ

/-- Embeds `firstdoughnutring` (TPI.py lines 103-154): the two-unknown
terminal problem of the oldest cohort alive at time 0.  `guesses` holds the
savings guess then the labor guess; `initial_b_col` is column `j` of
`initial_b`, so `b_s = initial_b[-2, j]` is `initial_b_col (S - 2)`.
The labor penalty guard is the source's literal `n <= 0 or n >= 1`
(TPI.py line 150); the savings penalty guard is `b_splus1 <= 0`. -/
def firstdoughnutring (focS focL : FocScalarFn) (r w bq tr : ℚ)
    (initial_b_col : ℕ → ℚ) (S : ℕ) (guesses : List ℚ) : List ℚ :=
  let b_splus1 := guesses.getD 0 0
  let n := guesses.getD 1 0
  let b_s := initial_b_col (S - 2)
  let error1 := focS r w bq tr b_s b_splus1 n
  let error2 := focL r w bq tr b_s b_splus1 n
  let error2p := if n ≤ 0 ∨ 1 ≤ n then error2 + 10 ^ 12 else error2
  let error1p := if b_splus1 ≤ 0 then error1 + 10 ^ 12 else error1
  [error1p, error2p]

/-- Embeds the budget-chain start of `twist_doughnut` (TPI.py lines
196-199): `b_s = [0] + b_guess[:-1]` for a full-lifetime diagonal
(`length == S`), and `b_s = [initial_b[-(s+3), j]] + b_guess[:-1]` for an
upper-triangle diagonal. -/
def twist_b_s (S length : ℕ) (initial_b_col : ℕ → ℚ) (s : ℕ)
    (b_guess : List ℚ) : List ℚ :=
  if length = S then 0 :: b_guess.dropLast
  else initial_b_col (S - (s + 3)) :: b_guess.dropLast

/-- Embeds the constraint-violation block of `twist_doughnut` (TPI.py lines
219-227): every one of the four masks (`n_guess < 0`, `n_guess > ltilde`,
`b_guess <= 0`, `b_splus1 < 0`, with `b_splus1 = b_guess`) adds `1e12` to
the corresponding entry of `error2`, the labor-FOC residual vector. -/
def twist_penalize (ltilde : ℚ) (b_guess n_guess error2 : List ℚ) : List ℚ :=
  (List.range error2.length).map fun i =>
    error2.getD i 0
      + (if n_guess.getD i 0 < 0 then 10 ^ 12 else 0)
      + (if ltilde < n_guess.getD i 0 then 10 ^ 12 else 0)
      + (if b_guess.getD i 0 ≤ 0 then 10 ^ 12 else 0)
      + (if b_guess.getD i 0 < 0 then 10 ^ 12 else 0)

/-- Embeds the path slices `w[t:t+length]` and `r[t:t+length]` of
`twist_doughnut` (TPI.py lines 202-203). -/
def twist_slices (path : ℕ → ℚ) (t len : ℕ) : List ℚ :=
  (List.range len).map fun i => path (t + i)

/-- Embeds `twist_doughnut` (TPI.py lines 157-229): residuals of the joint
lifetime solve along one diagonal.  The guess vector splits into savings
and labor halves, the wage and interest paths are sliced as `w[t:t+length]`
and `r[t:t+length]`, the FOC collaborators produce the raw residual
vectors, and the labor residual vector receives the penalty masks. -/
def twist_doughnut (focS focL : FocFn) (r w : ℕ → ℚ) (bq tr : List ℚ)
    (ltilde : ℚ) (S : ℕ) (initial_b_col : ℕ → ℚ) (s t : ℕ)
    (tau_c : List ℚ) (etr mtrx mtry : List (List ℚ))
    (guesses : List ℚ) : List ℚ :=
  let length := guesses.length / 2
  let b_guess := guesses.take length
  let n_guess := guesses.drop length
  let b_s := twist_b_s S length initial_b_col s b_guess
  let b_splus1 := b_guess
  let w_s := twist_slices w t length
  let r_s := twist_slices r t length
  let n_s := n_guess
  let error1 := focS r_s w_s b_s b_splus1 n_s bq tr tau_c etr mtry t
  let error2 := focL r_s w_s b_s b_splus1 n_s bq tr tau_c etr mtrx t
  error1 ++ twist_penalize ltilde b_guess n_guess error2

/-! ## Constraint-violation penalties of `Steady_State`
(src/Python/SS_init_init.py, lines 387-397)

The Euler residual arrays `error1` (savings FOCs) and `error2` (labor
FOCs), the labor guess, implied consumption, and the aggregate capital sum
are the values computed earlier inside `Steady_State`; the block rewrites
the residuals with `1e9` penalties. -/

/-- Adds `pen` to the entries of `err` selected by the boolean mask,
modelling numpy's `err[mask] += pen`. -/
def penalizeWhere (err : List ℚ) (mask : List Bool) (pen : ℚ) : List ℚ :=
  (List.range err.length).map fun i =>
    err.getD i 0 + (if mask.getD i false then pen else 0)

/-- Embeds SS_init_init.py lines 387-397 in source order: `error2` receives
`1e9` where `L_guess < 0`, where `L_guess > ltilde`, and where `cons < 0`;
every entry of `error1` receives `1e9` when the capital sum is
non-positive. -/
def steady_state_penalties (ltilde : ℚ) (L_guess cons : List ℚ) (Ksum : ℚ)
    (error1 error2 : List ℚ) : List ℚ × List ℚ :=
  let error2a := penalizeWhere error2 (L_guess.map fun x => decide (x < 0)) (10 ^ 9)
  let error2b := penalizeWhere error2a (L_guess.map fun x => decide (ltilde < x)) (10 ^ 9)
  let error1a := if Ksum ≤ 0 then error1.map (fun x => x + 10 ^ 9) else error1
  let error2c := penalizeWhere error2b (cons.map fun x => decide (x < 0)) (10 ^ 9)
  (error1a, error2c)

/-! ## Assembly of the start-of-period savings cube
(src/ogusa/TPI.py, lines 551-553) -/

/-- Embeds the `bmat_s` assembly of `run_TPI`:
`bmat_s = np.zeros((T, S, J))`, then `bmat_s[0, 1:, :] = initial_b[:-1, :]`
and `bmat_s[1:, 1:, :] = b_mat[:T-1, :-1, :]`.  Age index 0 is never
assigned, so it keeps the zero initialization. -/
def bmat_s_assemble (T S J : ℕ) (initial_b : ℕ → ℕ → ℚ)
    (b_mat : ℕ → ℕ → ℕ → ℚ) : ℕ → ℕ → ℕ → ℚ :=
  let m0 : ℕ → ℕ → ℕ → ℚ := fun _ _ _ => 0
  let m1 : ℕ → ℕ → ℕ → ℚ := fun t s j =>
    if t = 0 ∧ 1 ≤ s ∧ s < S ∧ j < J then initial_b (s - 1) j else m0 t s j
  fun t s j =>
    if 1 ≤ t ∧ t < T ∧ 1 ≤ s ∧ s < S ∧ j < J then b_mat (t - 1) (s - 1) j
    else m1 t s j

/-! ## `inner_loop` (src/ogusa/TPI.py, lines 232-383)

`inner_loop` solves the household problem of one ability type along the
transition path.  Scipy's `opt.fsolve` and the FOC collaborators are
parameters; every index computation (the wage overwrite, the numpy
diagonal extractions, the diagonal placement of solutions) is embedded
directly from the source.  All per-`j` arrays (`bq`, `tr`, `tau_c`,
`initial_b`, the guess matrices) are the `j`-th slices, since `j` is fixed
inside one call. -/

/-- Collects the inputs of one `inner_loop` call: the external
collaborators (`fsolve`, the four FOC functions, `firm.get_w_from_r`), the
outer-loop variables, the parameter arrays of `p` that `inner_loop` slices,
and the dimensions `S`, `T`. -/
structure InnerLoopArgs where
  fsolve : (List ℚ → List ℚ) → List ℚ → List ℚ
  focS : FocFn
  focL : FocFn
  focSF : FocScalarFn
  focLF : FocScalarFn
  get_w_from_r : ℚ → ℚ
  r : ℕ → ℚ
  r_hh : ℕ → ℚ
  bq : ℕ → ℕ → ℚ
  tr : ℕ → ℕ → ℚ
  tau_c : ℕ → ℕ → ℚ
  etr : ℕ → ℕ → List ℚ
  mtrx : ℕ → ℕ → List ℚ
  mtry : ℕ → ℕ → List ℚ
  guesses_b : ℕ → ℕ → ℚ
  guesses_n : ℕ → ℕ → ℚ
  ltilde : ℚ
  initial_b : ℕ → ℚ
  S : ℕ
  T : ℕ

/-- Embeds TPI.py line 273, `w[:p.T] = firm.get_w_from_r(r[:p.T], p, 'TPI')`:
the state of the wage array after `inner_loop` overwrites its first `T`
entries from the interest-rate path.  Since the assignment happens before
any household solve, every later read of `w` inside `inner_loop` goes
through this array.  (The assignment also mutates the caller's array in
place; this definition is that mutated array.)  The incoming wage path `w`
from `outer_loop_vars` is an explicit argument. -/
def tpi_w (a : InnerLoopArgs) (w : ℕ → ℚ) : ℕ → ℚ :=
  fun i => if i < a.T then a.get_w_from_r (a.r i) else w i

/-- Embeds `np.diag(mat[:n, :], off)` for a nonnegative offset: entries
`mat[i, off + i]` for `i < len`. -/
def npdiag_off (mat : ℕ → ℕ → ℚ) (off len : ℕ) : List ℚ :=
  (List.range len).map fun i => mat i (off + i)

/-- Embeds `np.diag(mat[t:t+len, :])`: entries `mat[t + i, i]` for `i < len`. -/
def npdiag_main (mat : ℕ → ℕ → ℚ) (t len : ℕ) : List ℚ :=
  (List.range len).map fun i => mat (t + i) i

/-- Diagonal extraction for the tax-function parameter arrays (one
coefficient vector per (period, age) cell), nonnegative offset.  The source
assembles `etr_params_to_use[:, i]` column by column; row `k` of the result
is the coefficient vector at diagonal cell `k`, which is the same matrix. -/
def npdiagL_off (mat : ℕ → ℕ → List ℚ) (off len : ℕ) : List (List ℚ) :=
  (List.range len).map fun i => mat i (off + i)

/-- Diagonal extraction for the tax-function parameter arrays along the
main diagonal of the block starting at row `t`. -/
def npdiagL_main (mat : ℕ → ℕ → List ℚ) (t len : ℕ) : List (List ℚ) :=
  (List.range len).map fun i => mat (t + i) i

/-- Embeds TPI.py lines 341-351: `etr_params_TP` extends a parameter array
to `T + S` rows by repeating row `T - 1` beyond row `T`. -/
def extend_params (T : ℕ) (P : ℕ → ℕ → List ℚ) : ℕ → ℕ → List ℚ :=
  fun i s => if i < T then P i s else P (T - 1) s

/-- Embeds the `firstdoughnutring` solve of `inner_loop` (TPI.py lines
284-291): `fsolve` applied to the terminal two-unknown problem at
`r_hh[0]`, `w[0]`, `bq[0, -1, j]`, `tr[0, -1, j]`, started from
`[guesses_b[0, -1], guesses_n[0, -1]]`. -/
def tpi_first_sol (a : InnerLoopArgs) (w : ℕ → ℚ) : List ℚ :=
  a.fsolve
    (fun g => firstdoughnutring a.focSF a.focLF (a.r_hh 0) (tpi_w a w 0)
      (a.bq 0 (a.S - 1)) (a.tr 0 (a.S - 1)) a.initial_b a.S g)
    [a.guesses_b 0 (a.S - 1), a.guesses_n 0 (a.S - 1)]

/-- Embeds the residual closure of the upper-triangle solve for loop index
`s` (TPI.py lines 293-324): `twist_doughnut` with every array sliced along
the diagonal of offset `S - (s + 2)`, at model period `t = 0`. -/
def tpi_ut_closure (a : InnerLoopArgs) (w : ℕ → ℚ) (s : ℕ) : List ℚ → List ℚ :=
  fun g => twist_doughnut a.focS a.focL a.r_hh (tpi_w a w)
    (npdiag_off a.bq (a.S - (s + 2)) (s + 2))
    (npdiag_off a.tr (a.S - (s + 2)) (s + 2))
    a.ltilde a.S a.initial_b s 0
    (npdiag_off a.tau_c (a.S - (s + 2)) (s + 2))
    (npdiagL_off a.etr (a.S - (s + 2)) (s + 2))
    (npdiagL_off a.mtrx (a.S - (s + 2)) (s + 2))
    (npdiagL_off a.mtry (a.S - (s + 2)) (s + 2)) g

/-- Embeds the upper-triangle `fsolve` call for loop index `s`: the initial
guess is the concatenation of the two diagonal extractions of the guess
matrices. -/
def tpi_ut_sol (a : InnerLoopArgs) (w : ℕ → ℚ) (s : ℕ) : List ℚ :=
  a.fsolve (tpi_ut_closure a w s)
    (npdiag_off a.guesses_b (a.S - (s + 2)) (s + 2) ++
     npdiag_off a.guesses_n (a.S - (s + 2)) (s + 2))

/-- Embeds the residual closure of the full-lifetime solve for model period
`t` (TPI.py lines 331-372): `twist_doughnut` with every array sliced along
the main diagonal of the block `[t : t + S]`, the tax-parameter arrays
first extended to `T + S` rows.  The source passes `s = None` here; the
`s` argument is unused because the guess has full length `2S`, and is
embedded as `0`. -/
def tpi_t_closure (a : InnerLoopArgs) (w : ℕ → ℚ) (t : ℕ) : List ℚ → List ℚ :=
  fun g => twist_doughnut a.focS a.focL a.r_hh (tpi_w a w)
    (npdiag_main a.bq t a.S) (npdiag_main a.tr t a.S)
    a.ltilde a.S a.initial_b 0 t
    (npdiag_main a.tau_c t a.S)
    (npdiagL_main (extend_params a.T a.etr) t a.S)
    (npdiagL_main (extend_params a.T a.mtrx) t a.S)
    (npdiagL_main (extend_params a.T a.mtry) t a.S) g

/-- Embeds the full-lifetime `fsolve` call for model period `t`: the savings
half of the initial guess is damped by the literal factor `.75` (TPI.py
line 332). -/
def tpi_t_sol (a : InnerLoopArgs) (w : ℕ → ℚ) (t : ℕ) : List ℚ :=
  a.fsolve (tpi_t_closure a w t)
    ((npdiag_main a.guesses_b t a.S).map (fun x => 3 / 4 * x) ++
     npdiag_main a.guesses_n t a.S)

/-- Embeds a numpy fancy-indexed diagonal assignment
`m[rs + k, cs + k] = vals[k]` for `k < len` into a functional matrix:
the written cells take the new values, all other cells fall through. -/
def writeDiag (m : ℕ → ℕ → ℚ) (rs cs len : ℕ) (vals : ℕ → ℚ) : ℕ → ℕ → ℚ :=
  fun i j =>
    if rs ≤ i ∧ i - rs < len ∧ j = cs + (i - rs) then vals (i - rs) else m i j

/-- Embeds the savings matrix assembled by `inner_loop`:
`b_mat = np.zeros((T + S, S))`, then `b_mat[0, -1]` from the
first-doughnut-ring solve, then `b_mat[ind2, S - (s+2) + ind2]` for each
upper-triangle diagonal, then `b_mat[t + ind, ind]` for each full model
period (TPI.py lines 280, 284, 327, 376). -/
def tpi_b_mat (a : InnerLoopArgs) (w : ℕ → ℚ) : ℕ → ℕ → ℚ :=
  let m0 : ℕ → ℕ → ℚ := fun _ _ => 0
  let m1 := writeDiag m0 0 (a.S - 1) 1 (fun _ => (tpi_first_sol a w).getD 0 0)
  let m2 := (List.range (a.S - 2)).foldl
    (fun m s => writeDiag m 0 (a.S - (s + 2)) (s + 2)
      (fun k => ((tpi_ut_sol a w s).take ((tpi_ut_sol a w s).length / 2)).getD k 0))
    m1
  (List.range a.T).foldl
    (fun m t => writeDiag m t 0 a.S
      (fun k => ((tpi_t_sol a w t).take a.S).getD k 0))
    m2

/-- Embeds the labor matrix assembled by `inner_loop`, written at exactly
the same diagonals as `tpi_b_mat` from the second halves of the solution
vectors (TPI.py lines 281, 284, 329, 378). -/
def tpi_n_mat (a : InnerLoopArgs) (w : ℕ → ℚ) : ℕ → ℕ → ℚ :=
  let m0 : ℕ → ℕ → ℚ := fun _ _ => 0
  let m1 := writeDiag m0 0 (a.S - 1) 1 (fun _ => (tpi_first_sol a w).getD 1 0)
  let m2 := (List.range (a.S - 2)).foldl
    (fun m s => writeDiag m 0 (a.S - (s + 2)) (s + 2)
      (fun k => ((tpi_ut_sol a w s).drop ((tpi_ut_sol a w s).length / 2)).getD k 0))
    m1
  (List.range a.T).foldl
    (fun m t => writeDiag m t 0 a.S
      (fun k => ((tpi_t_sol a w t).drop a.S).getD k 0))
    m2

/-- Embeds the Euler-error matrix of `inner_loop` (TPI.py lines 282, 373):
row `t` is `infodict['fvec']`, the residual of the period-`t` closure at
the returned solution; rows at or beyond `T` keep the zero initialization. -/
def tpi_euler_errors (a : InnerLoopArgs) (w : ℕ → ℚ) : ℕ → List ℚ :=
  fun t =>
    if t < a.T then tpi_t_closure a w t (tpi_t_sol a w t)
    else List.replicate (2 * a.S) 0

/-- Embeds the return value of `inner_loop`:
`(euler_errors, b_mat, n_mat)`. -/
def inner_loop (a : InnerLoopArgs) (w : ℕ → ℚ) :
    (ℕ → List ℚ) × (ℕ → ℕ → ℚ) × (ℕ → ℕ → ℚ) :=
  (tpi_euler_errors a w, tpi_b_mat a w, tpi_n_mat a w)

/-! ## Calibration objective `func_to_min`
(src/Python/SS_init_init.py, lines 475-510)

The inner steady-state solve (`opt.fsolve` on `Steady_State_X`) is an
external collaborator here: `StX` stands for the closure
`lambda x: Steady_State(x, bq_guesses_init)` (whose residuals are numpy
floats and may be NaN) and `fsolveSS` for `opt.fsolve`. -/

/-- Embeds `perc_dif_func` (SS_init_init.py line 344): elementwise
`|(simul - data) / data|`.  The numpy subtraction requires the two arrays
to have the same shape (it raises a broadcast `ValueError` otherwise), so
this embedding is meaningful -- and is only ever evaluated by the theorems
below -- at inputs of equal length. -/
def perc_dif_func (simul data : List ℚ) : List ℚ :=
  (List.zip simul data).map fun pr => |(pr.1 - pr.2) / pr.2|

/-- Embeds SS_init_init.py lines 489-493: `K_guess = solutions[0:S*J]`
reshaped `S × J`, `K2 = K_guess[:-1, :]`, `p99_sim = K2[:, -1] * factor`
with `factor = solutions[-1]`. -/
def p99_sim_calc (solutions : List ℚ) (S J : ℕ) : List ℚ :=
  let factor := solutions.getD (solutions.length - 1) 0
  (List.range (S - 1)).map fun i => solutions.getD (i * J + (J - 1)) 0 * factor

/-- Embeds SS_init_init.py line 498: the simulated labor distribution,
`(solutions[S*J : 2*S*J].reshape(S, J) * bin_weights).sum(axis=1)`. -/
def labor_sim_calc (solutions bin_weights : List ℚ) (S J : ℕ) : List ℚ :=
  (List.range S).map fun i =>
    ((List.range J).map fun j =>
      solutions.getD (S * J + i * J + j) 0 * bin_weights.getD j 0).sum

/-- Embeds the moment-deviation vector `output = np.array(error5 + error6)`
of `func_to_min` (SS_init_init.py lines 493-501): the wealth-moment
deviations `bq_half[11:45]` of `p99_sim[:-3]` against `p99[2:]`, followed
by the labor-moment deviations. -/
def calib_moments (solutions p99 labor_dist_data bin_weights : List ℚ)
    (S J : ℕ) : List ℚ :=
  let p99_sim := p99_sim_calc solutions S J
  let bq_half := perc_dif_func (p99_sim.take (p99_sim.length - 3)) (p99.drop 2)
  let bq_tomatch := (bq_half.drop 11).take 34
  let error5 := bq_tomatch
  let error6 := perc_dif_func (labor_sim_calc solutions bin_weights S J)
    labor_dist_data
  error5 ++ error6

/-- Absolute value of a numpy float64 value (`np.abs`). -/
def NpFloat.npabs : NpFloat → NpFloat
  | .fin q => .fin |q|
  | .inf => .inf
  | .neginf => .inf
  | .nan => .nan

/-- Binary maximum of numpy float64 values with `ndarray.max()` semantics:
NaN poisons the maximum. -/
def npmax2 : NpFloat → NpFloat → NpFloat
  | .nan, _ => .nan
  | _, .nan => .nan
  | .inf, _ => .inf
  | _, .inf => .inf
  | .neginf, z => z
  | z, .neginf => z
  | .fin p, .fin q => .fin (max p q)

/-- Maximum of a list of numpy float64 values (`ndarray.max()`); numpy
raises on an empty array, here the empty fold yields `-inf`. -/
def npmax_list (l : List NpFloat) : NpFloat :=
  l.foldl npmax2 .neginf

/-- Whether a numpy float64 value is NaN (`np.isnan`). -/
def NpFloat.isnan : NpFloat → Bool
  | .nan => true
  | _ => false

/-- IEEE comparison `x > c` of a numpy float64 value against a finite
threshold: infinity compares greater, NaN compares false. -/
def npgtQ : NpFloat → ℚ → Bool
  | .fin q, c => decide (c < q)
  | .inf, _ => true
  | .neginf, _ => false
  | .nan, _ => false

/-- Embeds `func_to_min` (SS_init_init.py lines 475-510): solve the steady
state for the candidate calibration parameters, build the moment-deviation
vector, replace a NaN convergence measure by `1e6`, and add `1e9` to every
entry of the vector when the convergence gate `> 1e-4` fails or when any
`chi_b` guess is non-positive; return the sum of the vector. -/
def func_to_min (StX : List ℚ → List NpFloat)
    (fsolveSS : (List ℚ → List NpFloat) → List ℚ → List ℚ)
    (bq_guesses other_guesses p99 labor_dist_data bin_weights : List ℚ)
    (S J : ℕ) : ℚ :=
  let solutions := fsolveSS StX other_guesses
  let output := calib_moments solutions p99 labor_dist_data bin_weights S J
  let m0 := npmax_list ((StX solutions).map NpFloat.npabs)
  let fsolve_no_converg := if m0.isnan then NpFloat.fin (10 ^ 6) else m0
  let output2 :=
    if npgtQ fsolve_no_converg (1 / 10 ^ 4) then
      output.map (fun x => x + 10 ^ 9)
    else output
  let output3 :=
    if bq_guesses.any (fun x => decide (x ≤ 0)) then
      output2.map (fun x => x + 10 ^ 9)
    else output2
  output3.sum

/-! ## Concrete instances used by witness statements -/

/-- Concrete `InnerLoopArgs` used by witness statements: the solver
parameter returns its initial guess unchanged, the FOC collaborators
return fixed values, and the dimensions are `S = 3`, `T = 2`. -/
def sampleArgs : InnerLoopArgs where
  fsolve := fun _ g => g
  focS := fun _ _ _ _ _ _ _ _ _ _ _ => []
  focL := fun _ _ _ _ _ _ _ _ _ _ _ => []
  focSF := fun _ _ _ _ _ _ _ => 0
  focLF := fun _ _ _ _ _ _ _ => 0
  get_w_from_r := fun x => x + 1
  r := fun i => (i : ℚ)
  r_hh := fun i => (i : ℚ) / 2
  bq := fun _ _ => 0
  tr := fun _ _ => 0
  tau_c := fun _ _ => 0
  etr := fun _ _ => []
  mtrx := fun _ _ => []
  mtry := fun _ _ => []
  guesses_b := fun i j => ((i * 10 + j : ℕ) : ℚ)
  guesses_n := fun i j => ((i * 10 + j : ℕ) : ℚ) + 100
  ltilde := 1
  initial_b := fun i => (i : ℚ)
  S := 3
  T := 2

/-- Sample incoming wage path for witness statements (differs from
`sampleW2` only before period `T = 2`). -/
def sampleW1 : ℕ → ℚ := fun i => if i < 2 then 5 else 7

/-- Second sample incoming wage path for witness statements (agrees with
`sampleW1` from period `T = 2` on). -/
def sampleW2 : ℕ → ℚ := fun i => if i < 2 then 9 else 7

/-! ## Theorems -/

/-- C5: for all inputs, the price aggregates compute exactly the stated
closed forms `Y = A * K^alpha * L^(1-alpha)`, `w = (1-alpha) * Y / L`, and
`r = alpha * Y / K - delta`, with no other terms; as Lean functions of
their arguments they are pure and mutate no state. -/
theorem C5_price_closed_forms (A alpha delta K L Y : ℝ) :
    get_Y A alpha K L = A * K ^ alpha * L ^ (1 - alpha) ∧
    get_w alpha Y L = (1 - alpha) * Y / L ∧
    get_r alpha delta Y K = alpha * Y / K - delta :=
  ⟨rfl, rfl, rfl⟩

/-- C6 counterexample: at aggregate labor `L = 0` (with `alpha = 0.35`,
`Y = 1`) the wage function returns the IEEE infinity produced by numpy
float division instead of raising a domain error, and likewise the
interest-rate function at `K = 0`; the claim that the division by zero "is
never silently propagated as NaN or infinity in the returned value" is
false at this input. -/
theorem C6_counterexample :
    get_w_np (35/100) 1 0 = NpFloat.inf ∧
    NpFloat.isFinite (get_w_np (35/100) 1 0) = false ∧
    get_r_np (35/100) (1/20) 1 0 = NpFloat.inf := by
  refine ⟨?_, ?_, ?_⟩ <;>
    norm_num [get_w_np, get_r_np, npdiv, npsub, NpFloat.isFinite]

/-- C6 (amended): when `wage` is called with `L = 0` or `rate` with
`K = 0`, no domain error is raised; the numpy division returns normally
with the IEEE special value determined by the numerator's sign (`inf`,
`-inf`, or `nan` for `0/0`), and with a nonzero denominator the exact
quotient is returned. -/
theorem C6_division_by_zero (alpha delta Y K L : ℚ) :
    (L = 0 → get_w_np alpha Y L =
      (if 0 < (1 - alpha) * Y then NpFloat.inf
       else if (1 - alpha) * Y < 0 then NpFloat.neginf else NpFloat.nan)) ∧
    (L ≠ 0 → get_w_np alpha Y L = NpFloat.fin ((1 - alpha) * Y / L)) ∧
    (K = 0 → get_r_np alpha delta Y K =
      (if 0 < alpha * Y then NpFloat.inf
       else if alpha * Y < 0 then NpFloat.neginf else NpFloat.nan)) ∧
    (K ≠ 0 → get_r_np alpha delta Y K = NpFloat.fin (alpha * Y / K - delta)) := by
  refine ⟨?_, ?_, ?_, ?_⟩
  · intro hL; subst hL
    unfold get_w_np npdiv
    rw [if_pos rfl]
  · intro hL
    unfold get_w_np npdiv
    rw [if_neg hL]
  · intro hK; subst hK
    unfold get_r_np npdiv npsub
    rw [if_pos rfl]
    split_ifs <;> rfl
  · intro hK
    unfold get_r_np npdiv npsub
    rw [if_neg hK]

/-- Witness for `C6_division_by_zero` at concrete inputs. -/
theorem C6_division_by_zero_witness :
    get_w_np (1/2) 2 0 = NpFloat.inf ∧
    get_w_np (1/2) 2 4 = NpFloat.fin (1/4) ∧
    get_r_np (1/2) (1/10) 2 0 = NpFloat.inf ∧
    get_r_np (1/2) (1/10) 2 4 = NpFloat.fin (3/20) :=
  ⟨((C6_division_by_zero (1/2) 0 2 0 0).1 rfl).trans
      (by rw [if_pos (by norm_num : (0:ℚ) < (1 - 1/2) * 2)]),
   ((C6_division_by_zero (1/2) 0 2 0 4).2.1 (by norm_num)).trans
      (by norm_num [NpFloat.fin.injEq]),
   ((C6_division_by_zero (1/2) (1/10) 2 0 0).2.2.1 rfl).trans
      (by rw [if_pos (by norm_num : (0:ℚ) < 1/2 * 2)]),
   ((C6_division_by_zero (1/2) (1/10) 2 4 0).2.2.2 (by norm_num)).trans
      (by norm_num [NpFloat.fin.injEq])⟩

/-- C3 counterexample: with the iteration counter at the ceiling, the
raised failure is the same fixed string for two different final distances
(`5` and `7`), so the failure does not report the final distance or
iteration count numerically; the claim's reporting requirement is false.
The solve does raise rather than return a result. -/
theorem C3_counterexample :
    run_TPI_checks 10 (1/1000) 10 5 [] [] [] (0 : ℚ)
        = Except.error "Transition path equlibrium not found (TPIdist)" ∧
    run_TPI_checks 10 (1/1000) 10 7 [] [] [] (0 : ℚ)
        = run_TPI_checks 10 (1/1000) 10 5 [] [] [] (0 : ℚ) := by
  constructor <;> rfl

/-- C3 (amended): whenever the outer loop ends with the iteration counter
at (or past) the configured ceiling, `run_TPI` raises a `RuntimeError`
carrying the fixed message `Transition path equlibrium not found (TPIdist)`
-- which identifies the distance check but contains no numeric distance or
iteration count -- and does not return the result dictionary. -/
theorem C3_outer_nonconvergence_raises {α : Type} (maxiter : ℕ)
    (mindist_TPI : ℚ) (TPIiter : ℕ) (TPIdist : ℚ)
    (RC_error eul_savings eul_laborleisure : List ℚ) (output : α)
    (h : maxiter ≤ TPIiter) :
    run_TPI_checks maxiter mindist_TPI TPIiter TPIdist RC_error eul_savings
      eul_laborleisure output =
      Except.error "Transition path equlibrium not found (TPIdist)" := by
  unfold run_TPI_checks
  rw [if_pos ⟨Or.inl h, rfl⟩]

/-- Witness for `C3_outer_nonconvergence_raises` at concrete inputs. -/
theorem C3_outer_nonconvergence_raises_witness :
    run_TPI_checks 3 (1/1000) 3 (5/2) [] [] [] (0 : ℚ)
      = Except.error "Transition path equlibrium not found (TPIdist)" :=
  C3_outer_nonconvergence_raises 3 (1/1000) 3 (5/2) [] [] [] 0 (by decide)

/-- C4 counterexample: with `nu = 1/2`, old wage `0` and new wage `1`, the
end-of-iteration update sets the wage path directly to the new value `1`,
whereas the claimed convex combination would give `1/2`; the claim that
every price path (including the wage path) is blended is false. -/
theorem C4_counterexample :
    (tpi_update 1 (1/2) false (fun _ => 0) (fun _ => 1) (fun _ => 0)
      (fun _ => 0) (fun _ => 0) (fun _ => 0) (fun _ => 0) (fun _ => 0)
      (fun _ => 0) (fun _ => 0) (fun _ => 0) (fun _ => 0) (fun _ => 0)
      (fun _ => 0) (fun _ => 0) (fun _ => 0)).w 0 = 1 ∧
    convex_combo 1 0 (1/2) = 1/2 ∧ ((1 : ℚ) ≠ 1/2) := by
  refine ⟨rfl, by norm_num [convex_combo], by norm_num⟩

/-- C4 (amended): at the end of every outer iteration, the interest-rate,
bequest, and output paths, the transfer path when spending is not fixed to
the baseline, and the savings and labor guess cubes are updated to the
convex combination `nu * new + (1 - nu) * old`; the wage path and the debt
path, however, are set directly to their newly computed values without
blending. -/
theorem C4_damped_update (T : ℕ) (nu : ℚ) (bs : Bool)
    (w wnew r rnew BQ BQnew D Dnew Y Ynew TR TR_new gb bm gn nm : ℕ → ℚ)
    (i : ℕ) (hi : i < T) :
    (tpi_update T nu bs w wnew r rnew BQ BQnew D Dnew Y Ynew TR TR_new
      gb bm gn nm).w i = wnew i ∧
    (tpi_update T nu bs w wnew r rnew BQ BQnew D Dnew Y Ynew TR TR_new
      gb bm gn nm).r i = convex_combo (rnew i) (r i) nu ∧
    (tpi_update T nu bs w wnew r rnew BQ BQnew D Dnew Y Ynew TR TR_new
      gb bm gn nm).BQ i = convex_combo (BQnew i) (BQ i) nu ∧
    (tpi_update T nu bs w wnew r rnew BQ BQnew D Dnew Y Ynew TR TR_new
      gb bm gn nm).D i = Dnew i ∧
    (tpi_update T nu bs w wnew r rnew BQ BQnew D Dnew Y Ynew TR TR_new
      gb bm gn nm).Y i = convex_combo (Ynew i) (Y i) nu ∧
    (bs = false →
      (tpi_update T nu bs w wnew r rnew BQ BQnew D Dnew Y Ynew TR TR_new
        gb bm gn nm).TR i = convex_combo (TR_new i) (TR i) nu) ∧
    (∀ k, (tpi_update T nu bs w wnew r rnew BQ BQnew D Dnew Y Ynew TR TR_new
        gb bm gn nm).guesses_b k = convex_combo (bm k) (gb k) nu) ∧
    (∀ k, (tpi_update T nu bs w wnew r rnew BQ BQnew D Dnew Y Ynew TR TR_new
        gb bm gn nm).guesses_n k = convex_combo (nm k) (gn k) nu) := by
  refine ⟨if_pos hi, if_pos hi, if_pos hi, if_pos hi, if_pos hi,
    fun hbs => if_pos ⟨hbs, hi⟩, fun k => rfl, fun k => rfl⟩

/-- Witness for `C4_damped_update` at concrete inputs. -/
theorem C4_damped_update_witness :
    (tpi_update 1 (1/2) false (fun _ => 0) (fun _ => 1) (fun _ => 0)
      (fun _ => 2) (fun _ => 0) (fun _ => 0) (fun _ => 0) (fun _ => 3)
      (fun _ => 0) (fun _ => 0) (fun _ => 0) (fun _ => 4) (fun _ => 0)
      (fun _ => 5) (fun _ => 0) (fun _ => 6)).w 0 = 1 ∧
    (tpi_update 1 (1/2) false (fun _ => 0) (fun _ => 1) (fun _ => 0)
      (fun _ => 2) (fun _ => 0) (fun _ => 0) (fun _ => 0) (fun _ => 3)
      (fun _ => 0) (fun _ => 0) (fun _ => 0) (fun _ => 4) (fun _ => 0)
      (fun _ => 5) (fun _ => 0) (fun _ => 6)).r 0 = convex_combo 2 0 (1/2) ∧
    (tpi_update 1 (1/2) false (fun _ => 0) (fun _ => 1) (fun _ => 0)
      (fun _ => 2) (fun _ => 0) (fun _ => 0) (fun _ => 0) (fun _ => 3)
      (fun _ => 0) (fun _ => 0) (fun _ => 0) (fun _ => 4) (fun _ => 0)
      (fun _ => 5) (fun _ => 0) (fun _ => 6)).D 0 = 3 ∧
    (tpi_update 1 (1/2) false (fun _ => 0) (fun _ => 1) (fun _ => 0)
      (fun _ => 2) (fun _ => 0) (fun _ => 0) (fun _ => 0) (fun _ => 3)
      (fun _ => 0) (fun _ => 0) (fun _ => 0) (fun _ => 4) (fun _ => 0)
      (fun _ => 5) (fun _ => 0) (fun _ => 6)).TR 0 = convex_combo 4 0 (1/2) ∧
    (tpi_update 1 (1/2) false (fun _ => 0) (fun _ => 1) (fun _ => 0)
      (fun _ => 2) (fun _ => 0) (fun _ => 0) (fun _ => 0) (fun _ => 3)
      (fun _ => 0) (fun _ => 0) (fun _ => 0) (fun _ => 4) (fun _ => 0)
      (fun _ => 5) (fun _ => 0) (fun _ => 6)).guesses_b 0
        = convex_combo 5 0 (1/2) := by
  have h := C4_damped_update 1 (1/2) false (fun _ => 0) (fun _ => 1)
    (fun _ => 0) (fun _ => 2) (fun _ => 0) (fun _ => 0) (fun _ => 0)
    (fun _ => 3) (fun _ => 0) (fun _ => 0) (fun _ => 0) (fun _ => 4)
    (fun _ => 0) (fun _ => 5) (fun _ => 0) (fun _ => 6) 0 (by decide)
  exact ⟨h.1, h.2.1, h.2.2.2.1, h.2.2.2.2.2.1 rfl, h.2.2.2.2.2.2.1 0⟩

/-- C7: the terminal problem has exactly two unknowns and two residuals and
the savings penalty fires exactly on non-positive savings, but the labor
penalty guard is the hard-coded `n <= 0 or n >= 1` (TPI.py line 150), not
the open interval `(0, ltilde)`: in a model with `ltilde = 2` the labor
guess `n = 3/2` lies strictly inside `(0, ltilde)` yet the code adds the
`1e12` penalty to the labor residual (the sibling `twist_doughnut` uses
`p.ltilde`, so the spec's bound is the evident intent and the literal `1`
a slip).  This theorem evaluates the embedded code at that failing input. -/
theorem C7_firstdoughnut_hardcoded_bound :
    ((0 : ℚ) < 3/2 ∧ (3/2 : ℚ) < 2) ∧
    firstdoughnutring (fun _ _ _ _ _ _ _ => 0) (fun _ _ _ _ _ _ _ => 0)
      0 0 0 0 (fun _ => 0) 3 [1, 3/2] = [0, 10 ^ 12] := by
  refine ⟨⟨by norm_num, by norm_num⟩, ?_⟩
  norm_num [firstdoughnutring]

/-- List lookup in a mapped range: entry `i` of `(range n).map f` is `f i`. -/
theorem getD_map_range {β : Type} (n : ℕ) (f : ℕ → β) (i : ℕ) (d : β)
    (h : i < n) : ((List.range n).map f).getD i d = f i := by
  rw [List.getD_eq_getElem?_getD, List.getElem?_map, List.getElem?_range h]
  rfl

/-- List lookup in a mapped list commutes with the map below the length. -/
theorem getD_map_fn (f : ℚ → ℚ) (l : List ℚ) (i : ℕ) (h : i < l.length)
    (d : ℚ) : (l.map f).getD i d = f (l.getD i d) := by
  rw [List.getD_eq_getElem?_getD, List.getElem?_map, List.getElem?_eq_getElem h,
    List.getD_eq_getElem?_getD, List.getElem?_eq_getElem h]
  rfl

/-- Lookup in a boolean mask built by mapping a decidable predicate. -/
theorem getD_map_mask (p : ℚ → Prop) [DecidablePred p] (l : List ℚ) (i : ℕ)
    (h : i < l.length) :
    (l.map fun x => decide (p x)).getD i false = decide (p (l.getD i 0)) := by
  rw [List.getD_eq_getElem?_getD, List.getElem?_map, List.getElem?_eq_getElem h,
    List.getD_eq_getElem?_getD, List.getElem?_eq_getElem h]
  rfl

/-- Summing a list shifted by a constant adds `length * c` to the sum. -/
theorem sum_map_add_const (l : List ℚ) (c : ℚ) :
    (l.map (fun x => x + c)).sum = l.sum + l.length * c := by
  induction l with
  | nil => simp
  | cons a t ih =>
    simp [ih]
    ring

/-- `penalizeWhere` preserves the length of the residual vector. -/
theorem penalizeWhere_length (err : List ℚ) (mask : List Bool) (pen : ℚ) :
    (penalizeWhere err mask pen).length = err.length := by
  unfold penalizeWhere
  simp

/-- Entrywise description of `penalizeWhere` below the length. -/
theorem penalizeWhere_getD (err : List ℚ) (mask : List Bool) (pen : ℚ)
    (i : ℕ) (h : i < err.length) :
    (penalizeWhere err mask pen).getD i 0
      = err.getD i 0 + (if mask.getD i false then pen else 0) := by
  unfold penalizeWhere
  rw [getD_map_range _ _ _ _ h]

/-- Summing after up to two rounds of elementwise penalties. -/
theorem sum_double_penalty (out : List ℚ) (c1 c2 : Bool) (pen : ℚ) :
    (if c2 then
       (if c1 then out.map (fun x => x + pen) else out).map (fun x => x + pen)
     else (if c1 then out.map (fun x => x + pen) else out)).sum
      = out.sum + (if c1 then out.length * pen else 0)
        + (if c2 then out.length * pen else 0) := by
  cases c1 with
  | false =>
    cases c2 with
    | false => simp
    | true =>
      simp [sum_map_add_const, List.length_map]
  | true =>
    cases c2 with
    | false =>
      simp [sum_map_add_const, List.length_map]
    | true =>
      simp [sum_map_add_const, List.length_map]
      ring

/-- C8: savings entering the first period of life is zero.  In the
start-of-period savings cube assembled by `run_TPI`, `b[t, 0, j] = 0` for
every transition period `t < T` and ability type `j < J`; and in the
lifetime budget chain of a full-lifetime diagonal solve (guess vector of
length `2S`), the chain starts at zero savings. -/
theorem C8_newborn_zero_savings :
    (∀ (T S J : ℕ) (initial_b : ℕ → ℕ → ℚ) (b_mat : ℕ → ℕ → ℕ → ℚ) (t j : ℕ),
      t < T → j < J → bmat_s_assemble T S J initial_b b_mat t 0 j = 0) ∧
    (∀ (S : ℕ) (initial_b_col : ℕ → ℚ) (s : ℕ) (g : List ℚ),
      g.length = 2 * S →
      (twist_b_s S (g.length / 2) initial_b_col s
        (g.take (g.length / 2))).getD 0 0 = 0) := by
  constructor
  · intro T S J ib bm t j _ _
    simp [bmat_s_assemble]
  · intro S ib s g hg
    have h2 : g.length / 2 = S := by omega
    rw [h2]
    simp [twist_b_s]

/-- Witness for `C8_newborn_zero_savings` at concrete inputs. -/
theorem C8_newborn_zero_savings_witness :
    bmat_s_assemble 2 3 1 (fun _ _ => 5) (fun _ _ _ => 7) 1 0 0 = 0 ∧
    (twist_b_s 2 (([1, 2, 3, 4] : List ℚ).length / 2) (fun _ => 9) 0
      (([1, 2, 3, 4] : List ℚ).take (([1, 2, 3, 4] : List ℚ).length / 2))).getD
        0 0 = 0 := by
  have h := C8_newborn_zero_savings
  exact ⟨h.1 2 3 1 (fun _ _ => 5) (fun _ _ _ => 7) 1 0 (by decide) (by decide),
         h.2 2 (fun _ => 9) 0 [1, 2, 3, 4] (by decide)⟩

/-- C2 counterexample: a savings violation (`b_guess = -1 <= 0`, labor
guess `1/2` strictly inside bounds) in `twist_doughnut` leaves the
savings-FOC residual entry unchanged at `0` and instead adds `2 * 1e12`
(two masks fire, a total outside the claimed `1e9`-`1e12` range) to the
labor-FOC residual entry, refuting the claim that the savings-FOC residual
is increased for savings violations. -/
theorem C2_counterexample :
    twist_doughnut (fun _ _ _ _ _ _ _ _ _ _ _ => [0])
      (fun _ _ _ _ _ _ _ _ _ _ _ => [0]) (fun _ => 0) (fun _ => 0) [] [] 1 1
      (fun _ => 0) 0 0 [] [] [] [] [-1, 1/2] = [0, 2 * 10 ^ 12] ∧
    ((-1 : ℚ) ≤ 0) := by
  constructor
  · norm_num [twist_doughnut, twist_penalize, twist_b_s, twist_slices,
      List.range_succ]
  · norm_num

/-- C2 (amended): residual evaluation never raises (the embedded residual
functions are total); in `twist_doughnut` every constraint penalty (labor
below `0`, labor above `ltilde`, savings `<= 0`, savings `< 0`; there is no
consumption mask) adds `1e12` to the corresponding labor-FOC residual
entry while the savings-FOC residual block is returned unchanged; in the
steady-state residual, labor-bound and negative-consumption violations add
`1e9` to the labor-FOC residual entry and a non-positive aggregate capital
sum adds `1e9` to every savings-FOC residual entry. -/
theorem C2_penalty_placement :
    (∀ (focS focL : FocFn) (r w : ℕ → ℚ) (bq tr : List ℚ) (ltilde : ℚ)
       (S : ℕ) (ib : ℕ → ℚ) (s t : ℕ) (tau_c : List ℚ)
       (etr mtrx mtry : List (List ℚ)) (g : List ℚ) (e1 e2 : List ℚ),
      e1 = focS (twist_slices r t (g.length / 2))
          (twist_slices w t (g.length / 2))
          (twist_b_s S (g.length / 2) ib s (g.take (g.length / 2)))
          (g.take (g.length / 2)) (g.drop (g.length / 2)) bq tr tau_c
          etr mtry t →
      e2 = focL (twist_slices r t (g.length / 2))
          (twist_slices w t (g.length / 2))
          (twist_b_s S (g.length / 2) ib s (g.take (g.length / 2)))
          (g.take (g.length / 2)) (g.drop (g.length / 2)) bq tr tau_c
          etr mtrx t →
      ∀ i,
      (i < e1.length →
        (twist_doughnut focS focL r w bq tr ltilde S ib s t tau_c etr mtrx
          mtry g).getD i 0 = e1.getD i 0) ∧
      (i < e2.length →
        (twist_doughnut focS focL r w bq tr ltilde S ib s t tau_c etr mtrx
          mtry g).getD (e1.length + i) 0
          = e2.getD i 0
            + ((if (g.drop (g.length / 2)).getD i 0 < 0 then 10 ^ 12 else 0)
              + (if ltilde < (g.drop (g.length / 2)).getD i 0 then 10 ^ 12 else 0)
              + (if (g.take (g.length / 2)).getD i 0 ≤ 0 then 10 ^ 12 else 0)
              + (if (g.take (g.length / 2)).getD i 0 < 0 then 10 ^ 12 else 0)))) ∧
    (∀ (ltilde : ℚ) (L_guess cons : List ℚ) (Ksum : ℚ)
       (error1 error2 : List ℚ) (i : ℕ),
      (i < error1.length →
        ((steady_state_penalties ltilde L_guess cons Ksum error1
          error2).1).getD i 0
          = error1.getD i 0 + (if Ksum ≤ 0 then 10 ^ 9 else 0)) ∧
      (i < error2.length → i < L_guess.length → i < cons.length →
        ((steady_state_penalties ltilde L_guess cons Ksum error1
          error2).2).getD i 0
          = error2.getD i 0
            + ((if L_guess.getD i 0 < 0 then 10 ^ 9 else 0)
              + (if ltilde < L_guess.getD i 0 then 10 ^ 9 else 0)
              + (if cons.getD i 0 < 0 then 10 ^ 9 else 0)))) := by
  constructor
  · intro focS focL r w bq tr ltilde S ib s t tau_c etr mtrx mtry g e1 e2
      he1 he2 i
    have hd : twist_doughnut focS focL r w bq tr ltilde S ib s t tau_c etr
        mtrx mtry g
        = e1 ++ twist_penalize ltilde (g.take (g.length / 2))
            (g.drop (g.length / 2)) e2 := by
      rw [he1, he2]
      rfl
    constructor
    · intro hi
      rw [hd, List.getD_append _ _ _ _ hi]
    · intro hi
      rw [hd, List.getD_append_right _ _ _ _ (Nat.le_add_right _ i)]
      have hidx : e1.length + i - e1.length = i := by omega
      rw [hidx]
      unfold twist_penalize
      rw [getD_map_range _ _ _ _ hi]
      ring
  · intro ltilde L_guess cons Ksum error1 error2 i
    constructor
    · intro hi
      simp only [steady_state_penalties]
      by_cases hK : Ksum ≤ 0
      · rw [if_pos hK, if_pos hK, getD_map_fn _ _ _ hi]
      · rw [if_neg hK, if_neg hK]
        simp
    · intro h2 hL hc
      simp only [steady_state_penalties]
      rw [penalizeWhere_getD _ _ _ _
        (by rw [penalizeWhere_length, penalizeWhere_length]; exact h2)]
      rw [penalizeWhere_getD _ _ _ _ (by rw [penalizeWhere_length]; exact h2)]
      rw [penalizeWhere_getD _ _ _ _ h2]
      rw [getD_map_mask _ _ _ hL, getD_map_mask _ _ _ hL,
        getD_map_mask _ _ _ hc]
      simp only [decide_eq_true_eq]
      ring

/-- Witness for `C2_penalty_placement` at concrete inputs. -/
theorem C2_penalty_placement_witness :
    (twist_doughnut (fun _ _ _ _ _ _ _ _ _ _ _ => [5])
      (fun _ _ _ _ _ _ _ _ _ _ _ => [7]) (fun _ => 0) (fun _ => 0) [] [] 3 1
      (fun _ => 0) 0 0 [] [] [] [] [-1, 2]).getD 0 0 = 5 ∧
    (twist_doughnut (fun _ _ _ _ _ _ _ _ _ _ _ => [5])
      (fun _ _ _ _ _ _ _ _ _ _ _ => [7]) (fun _ => 0) (fun _ => 0) [] [] 3 1
      (fun _ => 0) 0 0 [] [] [] [] [-1, 2]).getD 1 0 = 7 + 2 * 10 ^ 12 ∧
    ((steady_state_penalties 1 [-1] [-2] (-1) [2] [3]).1).getD 0 0
      = 2 + 10 ^ 9 ∧
    ((steady_state_penalties 1 [-1] [-2] (-1) [2] [3]).2).getD 0 0
      = 3 + 2 * 10 ^ 9 := by
  have h1 := C2_penalty_placement.1 (fun _ _ _ _ _ _ _ _ _ _ _ => [5])
    (fun _ _ _ _ _ _ _ _ _ _ _ => [7]) (fun _ => 0) (fun _ => 0) [] [] 3 1
    (fun _ => 0) 0 0 [] [] [] [] [-1, 2] [5] [7] rfl rfl 0
  have h2 := C2_penalty_placement.2 1 [-1] [-2] (-1) [2] [3] 0
  exact ⟨(h1.1 (by decide)).trans (by decide),
         (h1.2 (by decide)).trans (by norm_num),
         (h2.1 (by decide)).trans (by norm_num),
         ((h2.2 (by decide) (by decide) (by decide))).trans (by norm_num)⟩

/-- C9 counterexample: with `S = 2`, `J = 1`, shape-consistent data
(`p99` of length `2`, so that both `p99_sim[:-3]` and `p99[2:]` are empty
and the wealth-moment block is empty as in the source; labor data of
length `S = 2` against the two simulated labor moments), a solution vector
of length `2*S*J + 1 = 5`, a `chi_b` guess vector of length `S + 1 = 3`,
and a candidate whose steady-state residual vector (length
`(S-1)*J + S*J + J + 1 = 5`) has maximum absolute entry `1` (above the
`1e-4` gate), the calibration objective returns its unpenalized value plus
`2 * 1e9` -- the `1e9` penalty is added to each of the two entries of the
moment vector before summing -- not plus `1e9` as claimed: the
gate-failing and gate-passing runs differ by `2e9`. -/
theorem C9_counterexample :
    func_to_min
      (fun _ => [NpFloat.fin 1, NpFloat.fin 0, NpFloat.fin 0, NpFloat.fin 0,
        NpFloat.fin 0])
      (fun _ g => g) [1, 1, 1] [1, 1, 1, 1, 1] [1, 1] [1, 1] [1] 2 1
      = 2 * 10 ^ 9 ∧
    func_to_min
      (fun _ => [NpFloat.fin 0, NpFloat.fin 0, NpFloat.fin 0, NpFloat.fin 0,
        NpFloat.fin 0])
      (fun _ g => g) [1, 1, 1] [1, 1, 1, 1, 1] [1, 1] [1, 1] [1] 2 1 = 0 ∧
    ((2 * 10 ^ 9 : ℚ) - 0 ≠ 10 ^ 9) := by
  refine ⟨?_, ?_, by norm_num⟩
  · norm_num [func_to_min, calib_moments, p99_sim_calc, labor_sim_calc,
      perc_dif_func, npmax_list, npmax2, NpFloat.npabs, NpFloat.isnan,
      npgtQ, List.range_succ]
  · norm_num [func_to_min, calib_moments, p99_sim_calc, labor_sim_calc,
      perc_dif_func, npmax_list, npmax2, NpFloat.npabs, NpFloat.isnan,
      npgtQ, List.range_succ]

/-- C9 (amended): for every candidate guess the calibration objective
returns normally; its value is the sum of the moment-deviation vector plus
`N * 1e9` (with `N` the number of moments, since the `1e9` penalty is added
to every entry of the vector) when the convergence gate fails -- a NaN
maximum residual is first replaced by `1e6`, which also fails the `> 1e-4`
gate -- plus another `N * 1e9` when any `chi_b` guess is non-positive. -/
theorem C9_calibration_gate (StX : List ℚ → List NpFloat)
    (fsolveSS : (List ℚ → List NpFloat) → List ℚ → List ℚ)
    (bq_guesses other_guesses p99 labor_dist_data bin_weights : List ℚ)
    (S J : ℕ) :
    func_to_min StX fsolveSS bq_guesses other_guesses p99 labor_dist_data
        bin_weights S J
      = (calib_moments (fsolveSS StX other_guesses) p99 labor_dist_data
          bin_weights S J).sum
        + (if npgtQ
              (if (npmax_list ((StX (fsolveSS StX other_guesses)).map
                  NpFloat.npabs)).isnan then NpFloat.fin (10 ^ 6)
               else npmax_list ((StX (fsolveSS StX other_guesses)).map
                  NpFloat.npabs))
              (1 / 10 ^ 4) then
            ((calib_moments (fsolveSS StX other_guesses) p99 labor_dist_data
              bin_weights S J).length : ℚ) * 10 ^ 9
          else 0)
        + (if bq_guesses.any (fun x => decide (x ≤ 0)) then
            ((calib_moments (fsolveSS StX other_guesses) p99 labor_dist_data
              bin_weights S J).length : ℚ) * 10 ^ 9
          else 0) := by
  unfold func_to_min
  exact sum_double_penalty _ _ _ _

/-- A diagonal write hits the cell when its condition holds. -/
theorem writeDiag_hit (m : ℕ → ℕ → ℚ) (rs cs len : ℕ) (vals : ℕ → ℚ)
    (i j : ℕ) (h1 : rs ≤ i) (h2 : i - rs < len) (h3 : j = cs + (i - rs)) :
    writeDiag m rs cs len vals i j = vals (i - rs) := by
  unfold writeDiag
  rw [if_pos ⟨h1, h2, h3⟩]

/-- A diagonal write leaves every other cell unchanged. -/
theorem writeDiag_miss (m : ℕ → ℕ → ℚ) (rs cs len : ℕ) (vals : ℕ → ℚ)
    (i j : ℕ) (h : ¬(rs ≤ i ∧ i - rs < len ∧ j = cs + (i - rs))) :
    writeDiag m rs cs len vals i j = m i j := by
  unfold writeDiag
  rw [if_neg h]

/-- After the fold of full-lifetime diagonal writes (row start `t`, column
start `0`, length `S`), cell `(t + k, k)` with `t < N`, `k < S` holds the
value of the period-`t` write: distinct periods write disjoint diagonals. -/
theorem foldT_hit (S : ℕ) (V : ℕ → ℕ → ℚ) :
    ∀ (N : ℕ) (m : ℕ → ℕ → ℚ) (t k : ℕ), t < N → k < S →
      ((List.range N).foldl (fun m' t' => writeDiag m' t' 0 S (V t')) m)
        (t + k) k = V t k := by
  intro N
  induction N with
  | zero =>
    intro m t k ht _
    exact absurd ht (Nat.not_lt_zero t)
  | succ n ih =>
    intro m t k ht hk
    rw [List.range_succ, List.foldl_append, List.foldl_cons, List.foldl_nil]
    by_cases hc : t = n
    · subst hc
      rw [writeDiag_hit _ _ _ _ _ _ _ (Nat.le_add_right t k) (by omega)
        (by omega)]
      congr 1
      omega
    · rw [writeDiag_miss]
      · exact ih _ t k (by omega) hk
      · rintro ⟨hA, _, hC⟩
        omega

/-- The full-lifetime diagonal writes never touch a cell strictly above the
main diagonal (column greater than row). -/
theorem foldT_skip (S : ℕ) (V : ℕ → ℕ → ℚ) :
    ∀ (N : ℕ) (m : ℕ → ℕ → ℚ) (i j : ℕ), i < j →
      ((List.range N).foldl (fun m' t' => writeDiag m' t' 0 S (V t')) m)
        i j = m i j := by
  intro N
  induction N with
  | zero =>
    intro m i j _
    rfl
  | succ n ih =>
    intro m i j hij
    rw [List.range_succ, List.foldl_append, List.foldl_cons, List.foldl_nil]
    rw [writeDiag_miss]
    · exact ih m i j hij
    · rintro ⟨hA, _, hC⟩
      omega

/-- After the fold of upper-triangle diagonal writes (row start `0`, column
start `S - (s' + 2)`, length `s' + 2`), cell `(i, S - (s + 2) + i)` with
`s < N`, `i < s + 2` holds the value of the `s`-th write: distinct loop
indices write disjoint diagonals. -/
theorem foldUT_hit (S : ℕ) (W : ℕ → ℕ → ℚ) :
    ∀ (N : ℕ), N + 2 ≤ S → ∀ (m : ℕ → ℕ → ℚ) (s i : ℕ), s < N → i < s + 2 →
      ((List.range N).foldl
        (fun m' s' => writeDiag m' 0 (S - (s' + 2)) (s' + 2) (W s')) m)
        i (S - (s + 2) + i) = W s i := by
  intro N
  induction N with
  | zero =>
    intro _ m s i hs _
    exact absurd hs (Nat.not_lt_zero s)
  | succ n ih =>
    intro hN m s i hs hi
    rw [List.range_succ, List.foldl_append, List.foldl_cons, List.foldl_nil]
    by_cases hc : s = n
    · subst hc
      rw [writeDiag_hit _ _ _ _ _ _ _ (Nat.zero_le i) (by omega) (by omega),
        Nat.sub_zero]
    · rw [writeDiag_miss]
      · exact ih (by omega) _ s i (by omega) hi
      · rintro ⟨_, hB, hC⟩
        omega

/-- The upper-triangle diagonal writes never touch the first-doughnut-ring
cell `(0, S - 1)`. -/
theorem foldUT_skip_last (S : ℕ) (W : ℕ → ℕ → ℚ) :
    ∀ (N : ℕ), N + 2 ≤ S → ∀ (m : ℕ → ℕ → ℚ),
      ((List.range N).foldl
        (fun m' s' => writeDiag m' 0 (S - (s' + 2)) (s' + 2) (W s')) m)
        0 (S - 1) = m 0 (S - 1) := by
  intro N
  induction N with
  | zero =>
    intro _ m
    rfl
  | succ n ih =>
    intro hN m
    rw [List.range_succ, List.foldl_append, List.foldl_cons, List.foldl_nil]
    rw [writeDiag_miss]
    · exact ih (by omega) m
    · rintro ⟨_, _, hC⟩
      omega

/-- C1: in `inner_loop`, for every model period `t < T` and age `k < S`,
cell `(t + k, k)` of the assembled savings (resp. labor) matrix holds
entry `k` of the savings (resp. labor) half of the full-lifetime diagonal
solution for the cohort born at `t`; the analogous diagonal placement
holds for the shorter upper-triangle diagonals of cohorts already alive at
`t = 0` (`(i, S - (s + 2) + i)` holds entry `i` of the diagonal-`s`
solve), and the first-doughnut-ring solution occupies `(0, S - 1)`.
Quantified over every behaviour of the solver and FOC collaborators. -/
theorem C1_diagonal_placement (a : InnerLoopArgs) (w : ℕ → ℚ)
    (hS : 2 ≤ a.S) :
    (∀ t k, t < a.T → k < a.S →
      tpi_b_mat a w (t + k) k = ((tpi_t_sol a w t).take a.S).getD k 0 ∧
      tpi_n_mat a w (t + k) k = ((tpi_t_sol a w t).drop a.S).getD k 0) ∧
    (∀ s i, s < a.S - 2 → i < s + 2 →
      tpi_b_mat a w i (a.S - (s + 2) + i)
        = ((tpi_ut_sol a w s).take ((tpi_ut_sol a w s).length / 2)).getD i 0 ∧
      tpi_n_mat a w i (a.S - (s + 2) + i)
        = ((tpi_ut_sol a w s).drop ((tpi_ut_sol a w s).length / 2)).getD i 0) ∧
    (tpi_b_mat a w 0 (a.S - 1) = (tpi_first_sol a w).getD 0 0 ∧
     tpi_n_mat a w 0 (a.S - 1) = (tpi_first_sol a w).getD 1 0) := by
  refine ⟨?_, ?_, ?_, ?_⟩
  · intro t k ht hk
    constructor
    · simp only [tpi_b_mat]
      exact foldT_hit a.S
        (fun t' k' => ((tpi_t_sol a w t').take a.S).getD k' 0) a.T _ t k ht hk
    · simp only [tpi_n_mat]
      exact foldT_hit a.S
        (fun t' k' => ((tpi_t_sol a w t').drop a.S).getD k' 0) a.T _ t k ht hk
  · intro s i hs hi
    have hsS : s + 2 < a.S := by omega
    constructor
    · simp only [tpi_b_mat]
      rw [foldT_skip a.S _ a.T _ i (a.S - (s + 2) + i) (by omega)]
      exact foldUT_hit a.S
        (fun s' i' =>
          ((tpi_ut_sol a w s').take ((tpi_ut_sol a w s').length / 2)).getD i' 0)
        (a.S - 2) (by omega) _ s i (by omega) hi
    · simp only [tpi_n_mat]
      rw [foldT_skip a.S _ a.T _ i (a.S - (s + 2) + i) (by omega)]
      exact foldUT_hit a.S
        (fun s' i' =>
          ((tpi_ut_sol a w s').drop ((tpi_ut_sol a w s').length / 2)).getD i' 0)
        (a.S - 2) (by omega) _ s i (by omega) hi
  · simp only [tpi_b_mat]
    rw [foldT_skip a.S _ a.T _ 0 (a.S - 1) (by omega)]
    rw [foldUT_skip_last a.S _ (a.S - 2) (by omega) _]
    exact writeDiag_hit _ 0 (a.S - 1) 1 _ 0 (a.S - 1) (Nat.le_refl 0)
      (by omega) (by omega)
  · simp only [tpi_n_mat]
    rw [foldT_skip a.S _ a.T _ 0 (a.S - 1) (by omega)]
    rw [foldUT_skip_last a.S _ (a.S - 2) (by omega) _]
    exact writeDiag_hit _ 0 (a.S - 1) 1 _ 0 (a.S - 1) (Nat.le_refl 0)
      (by omega) (by omega)

/-- Witness for `C1_diagonal_placement` at a concrete instance
(`S = 3`, `T = 2`, solver returning its initial guess). -/
theorem C1_diagonal_placement_witness :
    tpi_b_mat sampleArgs sampleW1 3 2
      = ((tpi_t_sol sampleArgs sampleW1 1).take 3).getD 2 0 ∧
    tpi_n_mat sampleArgs sampleW1 1 2
      = ((tpi_ut_sol sampleArgs sampleW1 0).drop
          ((tpi_ut_sol sampleArgs sampleW1 0).length / 2)).getD 1 0 ∧
    tpi_b_mat sampleArgs sampleW1 0 2 = (tpi_first_sol sampleArgs sampleW1).getD 0 0 := by
  have h := C1_diagonal_placement sampleArgs sampleW1 (by decide)
  exact ⟨(h.1 1 2 (by decide) (by decide)).1,
         (h.2.1 0 1 (by decide) (by decide)).2,
         h.2.2.1⟩

/-- C10: the result of `inner_loop` is independent of the first `T` entries
of the incoming wage path: two wage paths that agree at indices `T` and
beyond produce identical Euler errors, savings and labor matrices, for
every behaviour of the solver and FOC collaborators, because `inner_loop`
overwrites `w[:T]` from the interest-rate path before any household solve
reads it; the overwritten array (which is the caller's array, mutated in
place) carries `get_w_from_r(r[i])` at every `i < T`. -/
theorem C10_wage_independence (a : InnerLoopArgs) (w1 w2 : ℕ → ℚ)
    (h : ∀ i, a.T ≤ i → w1 i = w2 i) :
    inner_loop a w1 = inner_loop a w2 ∧
    (∀ i, i < a.T → tpi_w a w1 i = a.get_w_from_r (a.r i)) := by
  have hw : tpi_w a w1 = tpi_w a w2 := by
    funext i
    unfold tpi_w
    by_cases hi : i < a.T
    · rw [if_pos hi, if_pos hi]
    · rw [if_neg hi, if_neg hi]
      exact h i (Nat.le_of_not_lt hi)
  constructor
  · unfold inner_loop tpi_euler_errors tpi_b_mat tpi_n_mat tpi_t_sol
      tpi_t_closure tpi_ut_sol tpi_ut_closure tpi_first_sol
    rw [hw]
  · intro i hi
    unfold tpi_w
    rw [if_pos hi]

/-- Witness for `C10_wage_independence`: the two sample wage paths agree
from period `2 = T` on, and the corresponding `inner_loop` results
coincide. -/
theorem C10_wage_independence_witness :
    inner_loop sampleArgs sampleW1 = inner_loop sampleArgs sampleW2 ∧
    tpi_w sampleArgs sampleW1 1 = sampleArgs.get_w_from_r (sampleArgs.r 1) := by
  have hagree : ∀ i, sampleArgs.T ≤ i → sampleW1 i = sampleW2 i := by
    intro i hi
    have hi2 : 2 ≤ i := hi
    simp only [sampleW1, sampleW2]
    rw [if_neg (by omega), if_neg (by omega)]
  have h := C10_wage_independence sampleArgs sampleW1 sampleW2 hagree
  exact ⟨h.1, h.2 1 (by decide)⟩

end OGCore
